import Mathlib

/-!
Verification development for the cisagov/tpt-reports repository.

The embedding models the aggregation pipeline of
`src/tpt_reports/tpt_reports.py` (`load_json_file`, `parse_json`,
`generate_reports`) and the table layout builder `format_table` of
`src/tpt_reports/report_generator.py`.

Python JSON values are modelled by the inductive type `Json`; Python
exceptions raised and caught inside `parse_json` are modelled with
`Except ParseError`; the Python empty dict that `parse_json` returns as
`payloads_meta` on an error path is modelled as `none`.
-/

namespace TptReports

/-- A Python value as loaded by `json.load`: null, booleans, numbers,
strings, lists and dicts (dicts as association lists with unique keys). -/
inductive Json where
  | null
  | bool (b : Bool)
  | num (n : Int)
  | str (s : String)
  | arr (elems : List Json)
  | obj (fields : List (String × Json))

/-- Python truthiness of a value, as used by `if data:`. -/
def Json.truthy : Json → Bool
  | .null => false
  | .bool b => b
  | .num n => n != 0
  | .str s => s != ""
  | .arr elems => !elems.isEmpty
  | .obj fields => !fields.isEmpty

/-- Python `value == "s"` for a string literal: true exactly when the value
is that string (any non-string value compares unequal). -/
def Json.eqStr : Json → String → Bool
  | .str s, t => s == t
  | _, _ => false

/-- The exceptions `parse_json` can raise internally: `KeyError` for a
missing dict key, `TypeError` for subscripting or iterating a wrong type,
`ValueError` for an invalid classification code. -/
inductive ParseError where
  | keyError (key : String)
  | typeError
  | valueError (msg : String)
deriving DecidableEq

/-- Python `value[key]` for a string key: the dict entry, `KeyError` when
the key is absent, `TypeError` when the value is not a dict. -/
def Json.getKeyE : Json → String → Except ParseError Json
  | .obj fields, k =>
    match List.lookup k fields with
    | some v => .ok v
    | none => .error (.keyError k)
  | _, _ => .error .typeError

/-- Python `for x in v`: the elements of a list; the characters of a
string; the keys of a dict; `TypeError` (modelled as `none`) otherwise. -/
def Json.iter : Json → Option (List Json)
  | .arr elems => some elems
  | .str s => some (s.toList.map fun c => Json.str (String.singleton c))
  | .obj fields => some (fields.map fun kv => Json.str kv.1)
  | _ => none

/-- One entry of `payloads_list` as built by `parse_json`: the dict
`{"Payload": ..., "C2 Protocol": ..., "Border Protection": ...,
"Host Protection": ...}`. The two protection entries are always the
canonical labels, the first two entries are raw input values. -/
structure PayloadRow where
  payload : Json
  c2Protocol : Json
  borderProtection : String
  hostProtection : String

/-- The classification of one protection field (`tpt_reports.py` lines
76-92): code "N" maps to "Not Blocked", code "B" maps to "Blocked", any
other value raises a `ValueError` carrying `errMsg`, the message literal
of the corresponding `raise` statement. -/
def protectionLabel (errMsg : String) (v : Json) : Except ParseError String :=
  if v.eqStr "N" then .ok "Not Blocked"
  else if v.eqStr "B" then .ok "Blocked"
  else .error (.valueError errMsg)

/-- The per-record body of the `parse_json` loop: reads
`payload["payload_description"]`, `payload["c2_protocol "]` (note the
trailing space in the key, per the source comment "c2_protocol requires
additional space to match input file format"), then classifies
`border_protection` and `host_protection` in that order. The first
exception aborts the record. -/
def processPayload (p : Json) : Except ParseError PayloadRow :=
  match p.getKeyE "payload_description" with
  | .error e => .error e
  | .ok desc =>
    match p.getKeyE "c2_protocol " with
    | .error e => .error e
    | .ok c2 =>
      match p.getKeyE "border_protection" with
      | .error e => .error e
      | .ok bv =>
        match protectionLabel "border_protection value must be either B or N" bv with
        | .error e => .error e
        | .ok bLabel =>
          match p.getKeyE "host_protection" with
          | .error e => .error e
          | .ok hv =>
            match protectionLabel "host_protection value must be either B or N" hv with
            | .error e => .error e
            | .ok hLabel => .ok ⟨desc, c2, bLabel, hLabel⟩

/-- The seven-entry `payloads_meta` dict as filled in by `parse_json`
lines 96-102 on its success path. -/
structure AggregateCounters where
  border_blocked : Nat
  border_not_blocked : Nat
  host_blocked : Nat
  host_not_blocked : Nat
  num_payloads : Nat
  payloads_blocked : Nat
  payloads_not_blocked : Nat
deriving DecidableEq

/-- The local counters and the accumulating `payloads_list` of the
`parse_json` loop. -/
structure LoopState where
  border_blocked : Nat
  border_not_blocked : Nat
  host_blocked : Nat
  host_not_blocked : Nat
  num_payloads : Nat
  payloads_list : List PayloadRow

/-- All counters zero, list empty: the state before the loop. -/
def initState : LoopState := ⟨0, 0, 0, 0, 0, []⟩

/-- One successful loop iteration: `num_payloads += 1`, the counter for
each classified label incremented, the row appended to `payloads_list`. -/
def stepState (st : LoopState) (row : PayloadRow) : LoopState :=
  { border_blocked :=
      st.border_blocked + (if row.borderProtection == "Blocked" then 1 else 0)
    border_not_blocked :=
      st.border_not_blocked + (if row.borderProtection == "Not Blocked" then 1 else 0)
    host_blocked :=
      st.host_blocked + (if row.hostProtection == "Blocked" then 1 else 0)
    host_not_blocked :=
      st.host_not_blocked + (if row.hostProtection == "Not Blocked" then 1 else 0)
    num_payloads := st.num_payloads + 1
    payloads_list := st.payloads_list ++ [row] }

/-- The `for payload in data["payloads"]` loop. A raised exception
(`.error`) escapes to the handler of `parse_json` with the rows
accumulated so far; the counters of the failed pass are discarded there. -/
def parseLoop : List Json → LoopState → Except (List PayloadRow) LoopState
  | [], st => .ok st
  | p :: rest, st =>
    match processPayload p with
    | .error _ => .error st.payloads_list
    | .ok row => parseLoop rest (stepState st row)

/-- The counters dict written after a completed loop: the four leaf
counters, `num_payloads`, and the two derived totals. -/
def mkCounters (st : LoopState) : AggregateCounters :=
  { border_blocked := st.border_blocked
    border_not_blocked := st.border_not_blocked
    host_blocked := st.host_blocked
    host_not_blocked := st.host_not_blocked
    num_payloads := st.num_payloads
    payloads_blocked := st.border_blocked + st.host_blocked
    payloads_not_blocked := st.border_not_blocked + st.host_not_blocked }

/-- `parse_json` (`tpt_reports.py` lines 58-106). Returns
`(payloads_meta, payloads_list)`; `none` models the empty dict left in
`payloads_meta` when any exception was caught by the
`except Exception` handler. A falsy `data` skips the loop and yields the
all-zero counters. -/
def parse_json (data : Json) : Option AggregateCounters × List PayloadRow :=
  if data.truthy then
    match data.getKeyE "payloads" with
    | .error _ => (none, [])
    | .ok payloadsVal =>
      match payloadsVal.iter with
      | none => (none, [])
      | some payloads =>
        match parseLoop payloads initState with
        | .error rows => (none, rows)
        | .ok st => (some (mkCounters st), st.payloads_list)
  else (some (mkCounters initState), [])

/-- Observable outcome of `generate_reports` (`tpt_reports.py` lines
111-128): the returned boolean, whether `parse_json` was called, whether
`report_gen` was called, the value stored at
`tpt_info["payloads_meta"]` (outer `none` when the key was never set),
and the `payloads_list` passed on to `report_gen`. -/
structure GenResult where
  success : Bool
  parseInvoked : Bool
  reportInvoked : Bool
  payloads_meta : Option (Option AggregateCounters)
  payloads_list : List PayloadRow

/-- `generate_reports`: its input is the result of
`load_json_file` (`none` when the file could not be opened). When the
loaded data is truthy it parses, calls `report_gen` unconditionally, and
returns `True`; otherwise it returns `False` without parsing.
`report_gen` is treated as an opaque rendering collaborator: the model
records that it was invoked and with which data, not its internals. -/
def generate_reports (loaded : Option Json) : GenResult :=
  match loaded with
  | some data =>
    if data.truthy then
      let parsed := parse_json data
      ⟨true, true, true, some parsed.1, parsed.2⟩
    else ⟨false, false, false, none, []⟩
  | none => ⟨false, false, false, none, []⟩

/-! ## Table layout builder (`report_generator.py`, `format_table`) -/

/-- An opaque-to-the-layout-logic paragraph style object. -/
abbrev Style := String

/-- One cell of the built table: either the raw input value passed
through unchanged (its column's entry in `column_style_list` is `None`),
or a `Paragraph(str(cell), style)` wrapper. A wrapped cell is a distinct
object and compares unequal to every string. -/
inductive TCell where
  | raw (v : Json)
  | par (v : Json) (style : Style)

/-- Python `cell == "s"` on a table cell: a `Paragraph` object never
equals a string; a raw value equals it per `Json.eqStr`. -/
def TCell.cellEqStr : TCell → String → Bool
  | .raw v, s => v.eqStr s
  | .par _ _, _ => false

/-- The header row: every column name wrapped with the header style
(`format_table` lines 105-107). -/
def headerRow (cols : List String) (headerStyle : Style) : List TCell :=
  cols.map fun c => TCell.par (Json.str c) headerStyle

/-- Rendering of one body row starting at column index `i`: a cell whose
column has a non-`None` entry in `styles` is wrapped with that style,
otherwise passed through raw; an index beyond `styles` raises
`IndexError`, modelled as `none` (`format_table` lines 110-119). -/
def renderRowFrom (styles : List (Option Style)) : List Json → Nat → Option (List TCell)
  | [], _ => some []
  | c :: cs, i =>
    match styles.get? i with
    | none => none
    | some styleOpt =>
      match renderRowFrom styles cs (i + 1) with
      | none => none
      | some tail =>
        some ((match styleOpt with
               | some s => TCell.par c s
               | none => TCell.raw c) :: tail)

/-- Rendering of a full body row. -/
def renderRow (styles : List (Option Style)) (row : List Json) : Option (List TCell) :=
  renderRowFrom styles row 0

/-- Rendering of all body rows in order. -/
def renderBody (styles : List (Option Style)) : List (List Json) → Option (List (List TCell))
  | [] => some []
  | r :: rs =>
    match renderRow styles r with
    | none => none
    | some tr =>
      match renderBody styles rs with
      | none => none
      | some trs => some (tr :: trs)

/-- One `style.add("TEXTCOLOR", (column, row), (column, row), color)`
command issued by the conditional-styling loop. -/
structure TextColorCmd where
  column : Nat
  row : Nat
  color : String
deriving DecidableEq

/-- The conditional-styling double loop (`format_table` lines 155-163):
for every cell of `data` (header row included), in row-major order, a
cell equal to the string "Not Blocked" adds a red text-color command and
a cell equal to "Blocked" adds a green one. -/
def tableCmds (data : List (List TCell)) : List TextColorCmd :=
  (data.enum.map fun rowPair =>
    rowPair.2.enum.filterMap fun cellPair =>
      if cellPair.2.cellEqStr "Not Blocked" then
        some ⟨cellPair.1, rowPair.1, "red"⟩
      else if cellPair.2.cellEqStr "Blocked" then
        some ⟨cellPair.1, rowPair.1, "green"⟩
      else none).flatten

/-- The observable output of `format_table`: the rendered rows
(`data = header_row + data`), the column widths handed to `Table`, the
conditional text-color commands added to the base `TableStyle`, and
whether the "No Data to Report" placeholder was attached
(`if len(df) == 0`). -/
structure TableResult where
  rows : List (List TCell)
  colWidths : List Nat
  cmds : List TextColorCmd
  noData : Bool

/-- `format_table` (`report_generator.py` lines 103-181) over a dataframe
given as its column names and body rows. `none` models an uncaught
`IndexError` from a body row longer than `column_style_list`. -/
def format_table (cols : List String) (bodyRows : List (List Json))
    (headerStyle : Style) (columnWidths : List Nat)
    (columnStyleList : List (Option Style)) : Option TableResult :=
  match renderBody columnStyleList bodyRows with
  | none => none
  | some body =>
    let data := headerRow cols headerStyle :: body
    some { rows := data
           colWidths := columnWidths
           cmds := tableCmds data
           noData := bodyRows.isEmpty }

/-! ## Helper functions -/

/-- Whether a computation in the exception monad succeeded. -/
def exceptIsOk {ε α : Type} : Except ε α → Bool
  | .ok _ => true
  | .error _ => false

/-- The successful value of a computation in the exception monad. -/
def exceptToOption {ε α : Type} : Except ε α → Option α
  | .ok a => some a
  | .error _ => none

/-! ## Lemmas about the classifier -/

theorem protectionLabel_ok_cases {f : String} {v : Json} {l : String}
    (h : protectionLabel f v = .ok l) : l = "Not Blocked" ∨ l = "Blocked" := by
  unfold protectionLabel at h
  split at h
  · exact Or.inl (Except.ok.inj h).symm
  split at h
  · exact Or.inr (Except.ok.inj h).symm
  · exact Except.noConfusion h

theorem processPayload_ok_iff {p : Json} {row : PayloadRow} :
    processPayload p = .ok row ↔
    ∃ desc c2 bv hv bl hl,
      p.getKeyE "payload_description" = .ok desc ∧
      p.getKeyE "c2_protocol " = .ok c2 ∧
      p.getKeyE "border_protection" = .ok bv ∧
      protectionLabel "border_protection value must be either B or N" bv = .ok bl ∧
      p.getKeyE "host_protection" = .ok hv ∧
      protectionLabel "host_protection value must be either B or N" hv = .ok hl ∧
      row = ⟨desc, c2, bl, hl⟩ := by
  unfold processPayload
  rcases h1 : p.getKeyE "payload_description" with e1 | desc
  · simp [h1]
  rcases h2 : p.getKeyE "c2_protocol " with e2 | c2
  · simp [h1, h2]
  rcases h3 : p.getKeyE "border_protection" with e3 | bv
  · simp [h1, h2, h3]
  rcases h4 : protectionLabel "border_protection value must be either B or N" bv with e4 | bl
  · simp [h1, h2, h3, h4]
  rcases h5 : p.getKeyE "host_protection" with e5 | hv
  · simp [h1, h2, h3, h4, h5]
  rcases h6 : protectionLabel "host_protection value must be either B or N" hv with e6 | hl
  · simp [h1, h2, h3, h4, h5, h6]
  · simp only [h1, h2, h3, h4, h5, h6, Except.ok.injEq]
    constructor
    · rintro rfl
      exact ⟨desc, c2, bv, hv, bl, hl, rfl, rfl, rfl, h4, rfl, h6, rfl⟩
    · rintro ⟨d, c, b, hvv, l1, l2, rfl, rfl, rfl, hlb, rfl, hlh, rfl⟩
      rw [h4] at hlb
      rw [h6] at hlh
      obtain rfl := Except.ok.inj hlb
      obtain rfl := Except.ok.inj hlh
      rfl

theorem processPayload_labels {p : Json} {row : PayloadRow}
    (h : processPayload p = .ok row) :
    (row.borderProtection = "Not Blocked" ∨ row.borderProtection = "Blocked") ∧
    (row.hostProtection = "Not Blocked" ∨ row.hostProtection = "Blocked") := by
  obtain ⟨desc, c2, bv, hv, bl, hl, _, _, _, hlb, _, hlh, rfl⟩ :=
    processPayload_ok_iff.mp h
  exact ⟨protectionLabel_ok_cases hlb, protectionLabel_ok_cases hlh⟩

/-! ## Lemmas about the aggregation loop -/

theorem stepState_inv {st : LoopState} {row : PayloadRow}
    (hb : row.borderProtection = "Not Blocked" ∨ row.borderProtection = "Blocked")
    (hh : row.hostProtection = "Not Blocked" ∨ row.hostProtection = "Blocked")
    (h1 : st.border_blocked + st.border_not_blocked = st.num_payloads)
    (h2 : st.host_blocked + st.host_not_blocked = st.num_payloads) :
    (stepState st row).border_blocked + (stepState st row).border_not_blocked
        = (stepState st row).num_payloads ∧
    (stepState st row).host_blocked + (stepState st row).host_not_blocked
        = (stepState st row).num_payloads := by
  rcases hb with hb | hb <;> rcases hh with hh | hh <;>
    simp [stepState, hb, hh] <;> omega

theorem parseLoop_ok_inv : ∀ (ps : List Json) (st st' : LoopState),
    parseLoop ps st = .ok st' →
    st.border_blocked + st.border_not_blocked = st.num_payloads →
    st.host_blocked + st.host_not_blocked = st.num_payloads →
    st'.border_blocked + st'.border_not_blocked = st'.num_payloads ∧
    st'.host_blocked + st'.host_not_blocked = st'.num_payloads
  | [], st, st', h, h1, h2 => by
      cases h
      exact ⟨h1, h2⟩
  | p :: rest, st, st', h, h1, h2 => by
      unfold parseLoop at h
      rcases hp : processPayload p with e | row
      · rw [hp] at h
        exact Except.noConfusion h
      · rw [hp] at h
        obtain ⟨hb, hh⟩ := processPayload_labels hp
        obtain ⟨g1, g2⟩ := stepState_inv hb hh h1 h2
        exact parseLoop_ok_inv rest _ st' h g1 g2

theorem parseLoop_ok_rows : ∀ (ps : List Json) (st st' : LoopState),
    parseLoop ps st = .ok st' →
    ∃ newRows, st'.payloads_list = st.payloads_list ++ newRows ∧
      List.Forall₂ (fun p row => processPayload p = .ok row) ps newRows
  | [], st, st', h => by
      cases h
      exact ⟨[], by simp, List.Forall₂.nil⟩
  | p :: rest, st, st', h => by
      unfold parseLoop at h
      rcases hp : processPayload p with e | row
      · rw [hp] at h
        exact Except.noConfusion h
      · rw [hp] at h
        obtain ⟨newRows, hlist, hfa⟩ := parseLoop_ok_rows rest _ st' h
        refine ⟨row :: newRows, ?_, List.Forall₂.cons hp hfa⟩
        simp only [stepState] at hlist
        simpa [List.append_assoc] using hlist

theorem parseLoop_first_failure :
    ∀ (pre : List Json) (st : LoopState) (bad : Json) (rest : List Json),
    (∀ p ∈ pre, exceptIsOk (processPayload p) = true) →
    exceptIsOk (processPayload bad) = false →
    parseLoop (pre ++ bad :: rest) st =
      .error (st.payloads_list ++ pre.filterMap fun p => exceptToOption (processPayload p))
  | [], st, bad, rest, _, hbad => by
      simp only [List.nil_append, List.filterMap_nil, List.append_nil]
      unfold parseLoop
      rcases hp : processPayload bad with e | row
      · rfl
      · rw [hp] at hbad
        exact absurd hbad (by simp [exceptIsOk])
  | p :: pre, st, bad, rest, hok, hbad => by
      have hpe := hok p (List.mem_cons_self p pre)
      rcases hp : processPayload p with e | row
      · rw [hp] at hpe
        exact absurd hpe (by simp [exceptIsOk])
      · have tailOk : ∀ q ∈ pre, exceptIsOk (processPayload q) = true :=
          fun q hq => hok q (List.mem_cons_of_mem p hq)
        have ih := parseLoop_first_failure pre (stepState st row) bad rest tailOk hbad
        simp only [List.cons_append, parseLoop, hp]
        rw [List.append_eq, ih]
        simp [stepState, hp, exceptToOption, List.append_assoc]

/-! ## Lemmas about parse_json -/

theorem parse_json_falsy {data : Json} (h : data.truthy = false) :
    parse_json data = (some (mkCounters initState), []) := by
  simp [parse_json, h]

theorem parse_json_truthy_arr {data : Json} {payloads : List Json}
    (htr : data.truthy = true)
    (hk : data.getKeyE "payloads" = .ok (Json.arr payloads)) :
    parse_json data =
      match parseLoop payloads initState with
      | .error rows => (none, rows)
      | .ok st => (some (mkCounters st), st.payloads_list) := by
  unfold parse_json
  rw [if_pos htr, hk]
  rfl

theorem parse_json_some_inv {data : Json} {c : AggregateCounters}
    {rows : List PayloadRow} (h : parse_json data = (some c, rows)) :
    ∃ st : LoopState, c = mkCounters st ∧ rows = st.payloads_list ∧
      st.border_blocked + st.border_not_blocked = st.num_payloads ∧
      st.host_blocked + st.host_not_blocked = st.num_payloads := by
  by_cases htr : data.truthy
  · unfold parse_json at h
    rw [if_pos htr] at h
    rcases hk : data.getKeyE "payloads" with e | pv
    · simp only [hk] at h
      simp at h
    simp only [hk] at h
    rcases hi : pv.iter with _ | ps
    · simp only [hi] at h
      simp at h
    simp only [hi] at h
    rcases hl : parseLoop ps initState with r | st
    · simp only [hl] at h
      simp at h
    simp only [hl] at h
    simp only [Prod.mk.injEq, Option.some.injEq] at h
    obtain ⟨rfl, rfl⟩ := h
    have hinv := parseLoop_ok_inv ps initState st hl rfl rfl
    exact ⟨st, rfl, rfl, hinv.1, hinv.2⟩
  · rw [parse_json_falsy (by simpa using htr)] at h
    simp only [Prod.mk.injEq, Option.some.injEq] at h
    obtain ⟨rfl, rfl⟩ := h
    exact ⟨initState, rfl, rfl, rfl, rfl⟩

/-! ## Lemmas about the table layout builder -/

theorem renderBody_get (sts : List (Option Style)) :
    ∀ (brows : List (List Json)) (body : List (List TCell)),
    renderBody sts brows = some body →
    body.length = brows.length ∧
    ∀ (i : Nat) (hi : i < brows.length), body[i]? = renderRow sts brows[i]
  | [], body, h => by
      simp only [renderBody, Option.some.injEq] at h
      subst h
      exact ⟨rfl, fun i hi => absurd hi (by simp)⟩
  | r :: rs, body, h => by
      rcases h1 : renderRow sts r with _ | tr
      · simp only [renderBody, h1] at h
        exact Option.noConfusion h
      rcases h2 : renderBody sts rs with _ | trs
      · simp only [renderBody, h1, h2] at h
        exact Option.noConfusion h
      simp only [renderBody, h1, h2, Option.some.injEq] at h
      subst h
      obtain ⟨hlen, hget⟩ := renderBody_get sts rs trs h2
      refine ⟨by simp [hlen], ?_⟩
      intro i hi
      cases i with
      | zero => simpa using h1.symm
      | succ n =>
          have hn : n < rs.length := by simpa using hi
          simpa using hget n hn

theorem cellEqStr_unique {cell : TCell} {s t : String}
    (hs : cell.cellEqStr s = true) (ht : cell.cellEqStr t = true) : s = t := by
  cases cell with
  | par v st => exact absurd hs (by simp [TCell.cellEqStr])
  | raw v =>
      cases v <;> simp [TCell.cellEqStr, Json.eqStr] at hs ht
      exact hs.symm.trans ht

theorem mem_tableCmds {data : List (List TCell)} {cmd : TextColorCmd} :
    cmd ∈ tableCmds data ↔
    ∃ cells cell, data[cmd.row]? = some cells ∧
      cells[cmd.column]? = some cell ∧
      ((cell.cellEqStr "Not Blocked" = true ∧ cmd.color = "red") ∨
       (cell.cellEqStr "Blocked" = true ∧ cmd.color = "green")) := by
  unfold tableCmds
  rw [List.mem_flatten]
  constructor
  · rintro ⟨l, hl, hcmd⟩
    rw [List.mem_map] at hl
    obtain ⟨⟨r, cells⟩, hrc, rfl⟩ := hl
    have hrow : data[r]? = some cells := by
      simpa using List.mem_enum_iff_getElem?.mp hrc
    simp only [List.mem_filterMap] at hcmd
    obtain ⟨⟨c, cell⟩, hcc, hsome⟩ := hcmd
    have hcell : cells[c]? = some cell := by
      simpa using List.mem_enum_iff_getElem?.mp hcc
    by_cases hnb : cell.cellEqStr "Not Blocked"
    · rw [if_pos hnb] at hsome
      obtain rfl := Option.some.inj hsome
      exact ⟨cells, cell, hrow, hcell, Or.inl ⟨hnb, rfl⟩⟩
    · rw [if_neg hnb] at hsome
      by_cases hb : cell.cellEqStr "Blocked"
      · rw [if_pos hb] at hsome
        obtain rfl := Option.some.inj hsome
        exact ⟨cells, cell, hrow, hcell, Or.inr ⟨hb, rfl⟩⟩
      · rw [if_neg hb] at hsome
        exact Option.noConfusion hsome
  · rintro ⟨cells, cell, hrow, hcell, hcase⟩
    obtain ⟨c, r, col⟩ := cmd
    refine ⟨_, List.mem_map.mpr
      ⟨(r, cells), List.mem_enum_iff_getElem?.mpr (by simpa using hrow), rfl⟩, ?_⟩
    simp only [List.mem_filterMap]
    refine ⟨(c, cell), List.mem_enum_iff_getElem?.mpr (by simpa using hcell), ?_⟩
    rcases hcase with ⟨hnb, hcol⟩ | ⟨hb, hcol⟩
    · simp only at hcol
      subst hcol
      rw [if_pos hnb]
    · simp only at hcol
      subst hcol
      have hnb : cell.cellEqStr "Not Blocked" = false := by
        cases hx : cell.cellEqStr "Not Blocked"
        · rfl
        · exact absurd (cellEqStr_unique hb hx) (by decide)
      rw [if_neg (by simp [hnb]), if_pos hb]

/-! ## Concrete sample inputs -/

/-- The record of `tests/data/test.json`: border "N", host "B". -/
def sampleRecord : Json := .obj
  [("payload_description", .str "Test payload"),
   ("c2_protocol ", .str "c2_1"),
   ("border_protection", .str "N"),
   ("host_protection", .str "B")]

/-- The classified row for `sampleRecord`. -/
def sampleRow : PayloadRow :=
  ⟨.str "Test payload", .str "c2_1", "Not Blocked", "Blocked"⟩

/-- An input document with the single valid record. -/
def sampleData : Json := .obj [("payloads", .arr [sampleRecord])]

/-- A record with an invalid border code "X" and a valid host code. -/
def invalidRecord : Json := .obj
  [("payload_description", .str "Test payload"),
   ("c2_protocol ", .str "c2_1"),
   ("border_protection", .str "X"),
   ("host_protection", .str "B")]

/-- An input document with one valid record followed by one invalid one. -/
def invalidData : Json := .obj [("payloads", .arr [sampleRecord, invalidRecord])]

/-- A record carrying the protocol key without the trailing space. -/
def noSpaceRecord : Json := .obj
  [("payload_description", .str "Test payload"),
   ("c2_protocol", .str "c2_1"),
   ("border_protection", .str "N"),
   ("host_protection", .str "B")]

/-- An input document with the space-less protocol-key record. -/
def noSpaceData : Json := .obj [("payloads", .arr [noSpaceRecord])]

/-- A record with border "B" and host "N". -/
def hostNotBlockedRecord : Json := .obj
  [("payload_description", .str "Test payload 2"),
   ("c2_protocol ", .str "c2_2"),
   ("border_protection", .str "B"),
   ("host_protection", .str "N")]

/-- A record with a valid border code "N" and an invalid host code "Z". -/
def invalidHostRecord : Json := .obj
  [("payload_description", .str "Test payload 3"),
   ("c2_protocol ", .str "c2_3"),
   ("border_protection", .str "N"),
   ("host_protection", .str "Z")]

/-! ## Claim theorems -/

/-- C2: whenever `parse_json` completes and returns counters, the
counters satisfy border_blocked + border_not_blocked =
host_blocked + host_not_blocked = num_payloads and payloads_blocked +
payloads_not_blocked = 2 * num_payloads. -/
theorem parse_json_counter_invariants (data : Json) (c : AggregateCounters)
    (rows : List PayloadRow) (h : parse_json data = (some c, rows)) :
    c.border_blocked + c.border_not_blocked = c.num_payloads ∧
    c.host_blocked + c.host_not_blocked = c.num_payloads ∧
    c.payloads_blocked + c.payloads_not_blocked = 2 * c.num_payloads := by
  obtain ⟨st, rfl, -, hb, hh⟩ := parse_json_some_inv h
  refine ⟨hb, hh, ?_⟩
  simp only [mkCounters]
  omega

/-- Witness for C2: the invariants hold at the sample input, whose
counters are (0, 1, 1, 0, 1, 1, 1). -/
theorem parse_json_counter_invariants_witness :
    parse_json sampleData = (some ⟨0, 1, 1, 0, 1, 1, 1⟩, [sampleRow]) ∧
    ((0 : Nat) + 1 = 1 ∧ (1 : Nat) + 0 = 1 ∧ (1 : Nat) + 1 = 2 * 1) :=
  ⟨rfl, parse_json_counter_invariants sampleData ⟨0, 1, 1, 0, 1, 1, 1⟩ [sampleRow] rfl⟩

/-- C3: the classifier maps each protection field by the full fixed
table — code "N" to "Not Blocked" and code "B" to "Blocked", in every
combination of the two fields; any other value fails with a ValueError
naming the offending field, a record with a bad border code fails
regardless of its host code, and a record with either valid border code
and a bad host code fails with the host-field error. -/
theorem classifier_fixed_table (p : Json) (desc c2 bv hv : Json)
    (hd : p.getKeyE "payload_description" = .ok desc)
    (hc : p.getKeyE "c2_protocol " = .ok c2)
    (hb : p.getKeyE "border_protection" = .ok bv)
    (hh : p.getKeyE "host_protection" = .ok hv) :
    (∀ bl hl : String,
      ((bv = Json.str "N" ∧ bl = "Not Blocked") ∨
       (bv = Json.str "B" ∧ bl = "Blocked")) →
      ((hv = Json.str "N" ∧ hl = "Not Blocked") ∨
       (hv = Json.str "B" ∧ hl = "Blocked")) →
      processPayload p = .ok ⟨desc, c2, bl, hl⟩) ∧
    (bv.eqStr "N" = false → bv.eqStr "B" = false →
      processPayload p =
        .error (.valueError "border_protection value must be either B or N")) ∧
    ((bv = Json.str "N" ∨ bv = Json.str "B") →
      hv.eqStr "N" = false → hv.eqStr "B" = false →
      processPayload p =
        .error (.valueError "host_protection value must be either B or N")) := by
  refine ⟨?_, ?_, ?_⟩
  · rintro bl hl (⟨rfl, rfl⟩ | ⟨rfl, rfl⟩) (⟨rfl, rfl⟩ | ⟨rfl, rfl⟩) <;>
      simp [processPayload, hd, hc, hb, hh, protectionLabel, Json.eqStr]
  · intro h1 h2
    simp [processPayload, hd, hc, hb, protectionLabel, h1, h2]
  · rintro (rfl | rfl) h1 h2
    · have hNN : (Json.str "N").eqStr "N" = true := rfl
      simp [processPayload, hd, hc, hb, hh, protectionLabel, hNN, h1, h2]
    · have hBN : (Json.str "B").eqStr "N" = false := rfl
      have hBB : (Json.str "B").eqStr "B" = true := rfl
      simp [processPayload, hd, hc, hb, hh, protectionLabel, hBN, hBB, h1, h2]

/-- Witness for C3: the N/B record classifies to (Not Blocked, Blocked),
the B/N record to (Blocked, Not Blocked), the record with border code
"X" fails with the border-field error, and the record with border "N"
and host code "Z" fails with the host-field error. -/
theorem classifier_fixed_table_witness :
    processPayload sampleRecord = .ok sampleRow ∧
    processPayload hostNotBlockedRecord =
      .ok ⟨.str "Test payload 2", .str "c2_2", "Blocked", "Not Blocked"⟩ ∧
    processPayload invalidRecord =
      .error (.valueError "border_protection value must be either B or N") ∧
    processPayload invalidHostRecord =
      .error (.valueError "host_protection value must be either B or N") :=
  ⟨(classifier_fixed_table sampleRecord (.str "Test payload") (.str "c2_1")
      (.str "N") (.str "B") rfl rfl rfl rfl).1 "Not Blocked" "Blocked"
      (Or.inl ⟨rfl, rfl⟩) (Or.inr ⟨rfl, rfl⟩),
   (classifier_fixed_table hostNotBlockedRecord (.str "Test payload 2")
      (.str "c2_2") (.str "B") (.str "N") rfl rfl rfl rfl).1 "Blocked" "Not Blocked"
      (Or.inr ⟨rfl, rfl⟩) (Or.inl ⟨rfl, rfl⟩),
   (classifier_fixed_table invalidRecord (.str "Test payload") (.str "c2_1")
      (.str "X") (.str "B") rfl rfl rfl rfl).2.1 rfl rfl,
   (classifier_fixed_table invalidHostRecord (.str "Test payload 3")
      (.str "c2_3") (.str "N") (.str "Z") rfl rfl rfl rfl).2.2 (Or.inl rfl) rfl rfl⟩

/-- C4: a falsy input document, or one whose payloads list is the empty
array, aggregates without error to the seven all-zero counters and an
empty row list. -/
theorem parse_json_empty_input (data : Json)
    (h : data.truthy = false ∨ data.getKeyE "payloads" = .ok (Json.arr [])) :
    parse_json data = (some ⟨0, 0, 0, 0, 0, 0, 0⟩, []) := by
  rcases h with h | h
  · rw [parse_json_falsy h]
    rfl
  · by_cases htr : data.truthy
    · rw [parse_json_truthy_arr htr h]
      rfl
    · rw [parse_json_falsy (by simpa using htr)]
      rfl

/-- Witness for C4: the empty-payloads document and the null document
both yield the all-zero counters. -/
theorem parse_json_empty_input_witness :
    parse_json (Json.obj [("payloads", Json.arr [])]) =
      (some ⟨0, 0, 0, 0, 0, 0, 0⟩, []) ∧
    parse_json Json.null = (some ⟨0, 0, 0, 0, 0, 0, 0⟩, []) :=
  ⟨parse_json_empty_input _ (Or.inr rfl), parse_json_empty_input _ (Or.inl rfl)⟩

/-- C10: `generate_reports` returns failure for a missing file and for
every loaded document that is falsy; in the falsy case no aggregation is
attempted, no report is generated, and the outcome is identical to the
missing-file outcome. -/
theorem generate_reports_falsy_data :
    (generate_reports none).success = false ∧
    ∀ d : Json, d.truthy = false →
      generate_reports (some d) = generate_reports none ∧
      (generate_reports (some d)).success = false ∧
      (generate_reports (some d)).parseInvoked = false ∧
      (generate_reports (some d)).reportInvoked = false := by
  refine ⟨rfl, fun d hd => ?_⟩
  simp [generate_reports, hd]

/-- Witness for C10: the empty JSON object document behaves exactly like
a missing file. -/
theorem generate_reports_falsy_data_witness :
    generate_reports (some (Json.obj [])) = generate_reports none ∧
    (generate_reports (some (Json.obj []))).success = false ∧
    (generate_reports (some (Json.obj []))).parseInvoked = false ∧
    (generate_reports (some (Json.obj []))).reportInvoked = false :=
  generate_reports_falsy_data.2 (Json.obj []) rfl

/-- C1 counterexample: an input whose payload list contains a record
with border_protection "X" makes aggregation fail (empty counters dict),
yet `generate_reports` still returns True and still invokes `report_gen`
with the incomplete data, contradicting the claimed failure signal. -/
theorem generate_reports_invalid_record_counterexample :
    (parse_json invalidData).1 = none ∧
    generate_reports (some invalidData) =
      ⟨true, true, true, some none, [sampleRow]⟩ :=
  ⟨rfl, rfl⟩

/-- C1 amended: when the loaded document is truthy but aggregation
failed (the counters dict is left empty), `generate_reports` still
returns True to the CLI layer and still invokes `report_gen` with the
partial row list; False is only produced for missing or falsy input. -/
theorem generate_reports_swallows_error (data : Json)
    (htr : data.truthy = true) (hmeta : (parse_json data).1 = none) :
    generate_reports (some data) =
      ⟨true, true, true, some none, (parse_json data).2⟩ := by
  simp [generate_reports, htr, hmeta]

/-- Witness for the amended C1 at the concrete invalid input. -/
theorem generate_reports_swallows_error_witness :
    generate_reports (some invalidData) =
      ⟨true, true, true, some none, [sampleRow]⟩ :=
  generate_reports_swallows_error invalidData rfl rfl

/-- C5 counterexample: a record carrying the protocol key without the
trailing space makes the whole aggregation fail (empty counters, no
rows), so the two key variants are not interchangeable. -/
theorem c2_protocol_no_space_counterexample :
    parse_json noSpaceData = (none, []) ∧
    processPayload noSpaceRecord = .error (.keyError "c2_protocol ") :=
  ⟨rfl, rfl⟩

/-- C5 amended: the classifier reads the C2-protocol value only from the
key "c2_protocol " (with trailing space); when that lookup fails the
record fails with exactly that lookup's KeyError, and when it succeeds
(with the other fields valid) the row carries the value stored under the
trailing-space key. -/
theorem c2_protocol_trailing_space_key (p : Json) :
    (∀ desc e, p.getKeyE "payload_description" = .ok desc →
      p.getKeyE "c2_protocol " = .error e → processPayload p = .error e) ∧
    (∀ desc c2 bv hv bl hl,
      p.getKeyE "payload_description" = .ok desc →
      p.getKeyE "c2_protocol " = .ok c2 →
      p.getKeyE "border_protection" = .ok bv →
      protectionLabel "border_protection value must be either B or N" bv = .ok bl →
      p.getKeyE "host_protection" = .ok hv →
      protectionLabel "host_protection value must be either B or N" hv = .ok hl →
      processPayload p = .ok ⟨desc, c2, bl, hl⟩) := by
  constructor
  · intro desc e hd hc
    simp [processPayload, hd, hc]
  · intro desc c2 bv hv bl hl hd hc hb hlb hh hlh
    simp [processPayload, hd, hc, hb, hlb, hh, hlh]

/-- Witness for the amended C5: the space-less record fails with the
trailing-space KeyError; the trailing-space record classifies fine. -/
theorem c2_protocol_trailing_space_key_witness :
    processPayload noSpaceRecord = .error (.keyError "c2_protocol ") ∧
    processPayload sampleRecord = .ok sampleRow :=
  ⟨(c2_protocol_trailing_space_key noSpaceRecord).1 (.str "Test payload") _ rfl rfl,
   (c2_protocol_trailing_space_key sampleRecord).2 (.str "Test payload")
      (.str "c2_1") (.str "N") (.str "B") "Not Blocked" "Blocked"
      rfl rfl rfl rfl rfl rfl⟩

/-- C9: when some record of the payload list fails classification,
`parse_json` catches the exception and returns normally with an empty
counters dict and exactly the classified rows of the records before the
first failing one, in input order. -/
theorem parse_json_error_recovery (data : Json)
    (payloads pre rest : List Json) (bad : Json)
    (htr : data.truthy = true)
    (hk : data.getKeyE "payloads" = .ok (Json.arr payloads))
    (hsplit : payloads = pre ++ bad :: rest)
    (hok : ∀ p ∈ pre, exceptIsOk (processPayload p) = true)
    (hbad : exceptIsOk (processPayload bad) = false) :
    parse_json data =
      (none, pre.filterMap fun p => exceptToOption (processPayload p)) := by
  rw [parse_json_truthy_arr htr hk, hsplit,
    parseLoop_first_failure pre initState bad rest hok hbad]
  rfl

/-- Witness for C9: the document whose second record is invalid yields
no counters and only the first record's classified row. -/
theorem parse_json_error_recovery_witness :
    parse_json invalidData = (none, [sampleRow]) := by
  have h := parse_json_error_recovery invalidData [sampleRecord, invalidRecord]
      [sampleRecord] [] invalidRecord rfl rfl rfl
      (by
        intro p hp
        rw [List.mem_singleton] at hp
        subst hp
        rfl)
      rfl
  exact h

/-- Inversion of a successful `format_table` call: the rendered body
exists and the result is the header row followed by it, with the
commands computed over the full table and the placeholder flag set by
the body's emptiness. -/
theorem format_table_some_inv {cols : List String}
    {bodyRows : List (List Json)} {hs : Style} {ws : List Nat}
    {sts : List (Option Style)} {res : TableResult}
    (h : format_table cols bodyRows hs ws sts = some res) :
    ∃ body, renderBody sts bodyRows = some body ∧
      res = ⟨headerRow cols hs :: body, ws,
        tableCmds (headerRow cols hs :: body), bodyRows.isEmpty⟩ := by
  unfold format_table at h
  rcases hb : renderBody sts bodyRows with _ | body
  · rw [hb] at h
    exact Option.noConfusion h
  · rw [hb] at h
    exact ⟨body, rfl, (Option.some.inj h).symm⟩

/-- C6: on zero body rows `format_table` succeeds with a header-only
table and the "No Data to Report" placeholder; any successful call
returns exactly one rendered row per body row plus the header, with the
placeholder exactly when the body is empty. -/
theorem format_table_zero_rows_and_count (cols : List String)
    (bodyRows : List (List Json)) (hs : Style) (ws : List Nat)
    (sts : List (Option Style)) :
    format_table cols [] hs ws sts =
      some ⟨[headerRow cols hs], ws, tableCmds [headerRow cols hs], true⟩ ∧
    ∀ res, format_table cols bodyRows hs ws sts = some res →
      res.rows.length = bodyRows.length + 1 ∧ res.noData = bodyRows.isEmpty := by
  refine ⟨rfl, ?_⟩
  intro res h
  obtain ⟨body, hb, rfl⟩ := format_table_some_inv h
  obtain ⟨hlen, -⟩ := renderBody_get sts bodyRows body hb
  simp [hlen]

/-- Witness for C6: a one-column table with one body row has two
rendered rows and no placeholder; the zero-row conjunct is applied at
the same column set. -/
theorem format_table_zero_rows_and_count_witness :
    format_table ["A"] [] "hs" [1] [none] =
      some ⟨[headerRow ["A"] "hs"], [1], tableCmds [headerRow ["A"] "hs"], true⟩ ∧
    ((2 : Nat) = 1 + 1 ∧ false = false) :=
  ⟨(format_table_zero_rows_and_count ["A"] [] "hs" [1] [none]).1,
   (format_table_zero_rows_and_count ["A"] [[Json.str "x"]] "hs" [1] [none]).2
      ⟨[headerRow ["A"] "hs", [TCell.raw (Json.str "x")]], [1], [], false⟩ rfl⟩

/-- C7 counterexample: a body cell whose underlying value is the string
"Blocked" but whose column has a (non-verbatim) style is wrapped in a
Paragraph object, so the comparison against the literal fails and the
produced table carries no style marker at all, contradicting the claim
that any cell valued "Blocked" carries the success marker. -/
theorem format_table_styled_cell_counterexample :
    format_table ["Payload"] [[Json.str "Blocked"]] "hs" [1] [some "body"] =
      some ⟨[headerRow ["Payload"] "hs",
             [TCell.par (Json.str "Blocked") "body"]], [1], [], false⟩ :=
  rfl

/-- C7 amended: a command of the produced table marks exactly the cells
that are raw (verbatim-column) values equal to the literal "Not Blocked"
(warning red) or "Blocked" (success green); cells wrapped in a
Paragraph — every header cell and every styled-column body cell — never
carry a marker, whatever their underlying value. -/
theorem format_table_cond_styling (cols : List String)
    (bodyRows : List (List Json)) (hs : Style) (ws : List Nat)
    (sts : List (Option Style)) (res : TableResult)
    (h : format_table cols bodyRows hs ws sts = some res) :
    (∀ cmd : TextColorCmd, cmd ∈ res.cmds ↔
      ∃ cells cell, res.rows[cmd.row]? = some cells ∧
        cells[cmd.column]? = some cell ∧
        ((cell.cellEqStr "Not Blocked" = true ∧ cmd.color = "red") ∨
         (cell.cellEqStr "Blocked" = true ∧ cmd.color = "green"))) ∧
    (∀ (r c : Nat) (cells : List TCell) (v : Json) (s : Style) (color : String),
      res.rows[r]? = some cells → cells[c]? = some (TCell.par v s) →
      (⟨c, r, color⟩ : TextColorCmd) ∉ res.cmds) := by
  obtain ⟨body, hb, rfl⟩ := format_table_some_inv h
  constructor
  · intro cmd
    exact mem_tableCmds
  · intro r c cells v s color hrow hcell hmem
    obtain ⟨cells', cell', hrow', hcell', hcase⟩ := mem_tableCmds.mp hmem
    obtain rfl := Option.some.inj (hrow'.symm.trans hrow)
    obtain rfl := Option.some.inj (hcell'.symm.trans hcell)
    rcases hcase with ⟨hx, -⟩ | ⟨hx, -⟩ <;>
      exact absurd hx (by simp [TCell.cellEqStr])

/-- Witness for the amended C7: in a one-column verbatim table whose
body cell is the raw string "Not Blocked", the red marker at body cell
(0, 1) is produced. -/
theorem format_table_cond_styling_witness :
    (⟨0, 1, "red"⟩ : TextColorCmd) ∈
      (⟨[headerRow ["A"] "hs", [TCell.raw (Json.str "Not Blocked")]], [1],
        [⟨0, 1, "red"⟩], false⟩ : TableResult).cmds :=
  ((format_table_cond_styling ["A"] [[Json.str "Not Blocked"]] "hs" [1] [none]
      ⟨[headerRow ["A"] "hs", [TCell.raw (Json.str "Not Blocked")]], [1],
        [⟨0, 1, "red"⟩], false⟩ rfl).1 ⟨0, 1, "red"⟩).mpr
    ⟨[TCell.raw (Json.str "Not Blocked")], TCell.raw (Json.str "Not Blocked"),
      rfl, rfl, Or.inl ⟨rfl, rfl⟩⟩

/-- C8: row order is preserved end to end — on a successful aggregation
the classified row of input record i sits at position i of the returned
row list, and a successful `format_table` call places the header at
table row 0 and body row i at table row i + 1, unchanged. -/
theorem pipeline_preserves_order (data : Json) (payloads : List Json)
    (c : AggregateCounters) (rows : List PayloadRow)
    (htr : data.truthy = true)
    (hk : data.getKeyE "payloads" = .ok (Json.arr payloads))
    (hparse : parse_json data = (some c, rows)) :
    (rows.length = payloads.length ∧
      ∀ (i : Nat) (h1 : i < payloads.length) (h2 : i < rows.length),
        processPayload payloads[i] = .ok rows[i]) ∧
    ∀ (cols : List String) (brows : List (List Json)) (hs : Style)
      (ws : List Nat) (sts : List (Option Style)) (res : TableResult),
      format_table cols brows hs ws sts = some res →
      res.rows[0]? = some (headerRow cols hs) ∧
      ∀ (i : Nat) (hi : i < brows.length),
        res.rows[i + 1]? = renderRow sts brows[i] := by
  constructor
  · rw [parse_json_truthy_arr htr hk] at hparse
    rcases hl : parseLoop payloads initState with r | st
    · simp only [hl] at hparse
      simp at hparse
    simp only [hl, Prod.mk.injEq, Option.some.injEq] at hparse
    obtain ⟨rfl, rfl⟩ := hparse
    obtain ⟨newRows, hlist, hfa⟩ := parseLoop_ok_rows payloads initState st hl
    simp only [initState, List.nil_append] at hlist
    rw [hlist]
    rw [List.forall₂_iff_get] at hfa
    obtain ⟨hlen, hget⟩ := hfa
    refine ⟨hlen.symm, ?_⟩
    intro i h1 h2
    exact hget i h1 (by omega)
  · intro cols brows hs ws sts res h
    obtain ⟨body, hb, rfl⟩ := format_table_some_inv h
    obtain ⟨hlen, hget⟩ := renderBody_get sts brows body hb
    refine ⟨by simp, ?_⟩
    intro i hi
    simpa using hget i hi

/-- Witness for C8: at the sample input the single record's row sits at
index 0, and a concrete one-row table places the header at row 0. -/
theorem pipeline_preserves_order_witness :
    processPayload sampleRecord = .ok sampleRow ∧
    ([headerRow ["A"] "hs", [TCell.raw (Json.str "x")]])[0]? =
      some (headerRow ["A"] "hs") := by
  have h := pipeline_preserves_order sampleData [sampleRecord]
      ⟨0, 1, 1, 0, 1, 1, 1⟩ [sampleRow] rfl rfl rfl
  refine ⟨h.1.2 0 (by decide) (by decide), ?_⟩
  exact (h.2 ["A"] [[Json.str "x"]] "hs" [1] [none]
      ⟨[headerRow ["A"] "hs", [TCell.raw (Json.str "x")]], [1], [], false⟩ rfl).1

end TptReports
